import Mathlib

/-!
Shallow embedding of `app/services/analysis_cat.py` — the cat body-metrics
estimation engine of the catshop backend.

Modelling conventions:
* Python floats are modelled as exact rationals (`ℚ`).
* `math.pi` is modelled as the exact rational value of the IEEE-754 double
  that CPython's `math.pi` denotes.
* Python `round(x, n)` rounds half to even; `pyRound`/`pyRoundTo` mirror that.
* Python strings are modelled as `String`; the colour normaliser, which is a
  character-level transform, is modelled on `List Char`.
* Operations that can raise (`ZeroDivisionError`, `KeyError`, `max()` over an
  empty iterable) return `Option`; `none` models the exception.
* CPython iterates `set(sizes)` in a hash-seed dependent order; that order is
  made an explicit parameter (`order : List String`), constrained where needed
  to be an enumeration of the distinct elements of `sizes`.
-/

namespace CatShop

/-- Python `round` to an integer: round half to even (banker's rounding). -/
def pyRound (q : ℚ) : ℤ :=
  let f := ⌊q⌋
  if q - f < 1/2 then f
  else if (1 : ℚ)/2 < q - f then f + 1
  else if 2 ∣ f then f else f + 1

/-- Python `round(x, n)`: round to `n` decimal digits, half to even. -/
def pyRoundTo (n : ℕ) (q : ℚ) : ℚ :=
  (pyRound (q * 10 ^ n) : ℚ) / 10 ^ n

/-- Exact rational value of the IEEE-754 double denoted by `math.pi`. -/
def mathPi : ℚ := 884279719003555 / 281474976710656

/-- `estimate_posture(w, h)` from `analysis_cat.py`: classifies the cat's
posture from the bounding-box aspect and returns `(posture, posture_factor)`.
The source computes `ratio = w / max(h, 1)`. -/
def estimate_posture (w h : ℚ) : String × ℚ :=
  let r := w / max h 1
  if 8/5 < r then ("lying", 17/20)
  else if 7/5 < r then ("curled", 22/25)
  else if r < 4/5 then ("sitting", 23/25)
  else if r < 1 then ("standing", 1)
  else ("standing", 49/50)

/-- The `torso_ratio` dict of `estimate_body_metrics`, as an association
list; indexing with a key outside the four entries is a `KeyError` (`none`). -/
def TORSO_RATIO_TABLE : List (String × ℚ) :=
  [("lying", 11/20), ("curled", 1/2), ("sitting", 3/5), ("standing", 13/20)]

/-- The record returned by `estimate_body_metrics`. -/
structure BodyMetrics where
  posture : String
  chest_cm : ℚ
  neck_cm : ℚ
  waist_cm : ℚ
  body_length_cm : ℚ
  back_length_cm : ℚ
  leg_length_cm : ℚ
  confidence : ℚ
  quality_flag : String
deriving DecidableEq, Repr

/-- `estimate_body_metrics(bbox)` from `analysis_cat.py`, with the bounding
box passed as its four components.  `none` models the only possible raise,
a `KeyError` on the `torso_ratio` dict (shown impossible below). -/
def estimate_body_metrics (x1 y1 x2 y2 : ℚ) : Option BodyMetrics :=
  let w := max (x2 - x1) 1
  let h := max (y2 - y1) 1
  let pf := estimate_posture w h
  match List.lookup pf.1 TORSO_RATIO_TABLE with
  | none => none
  | some torsoRat =>
    let effective_height := h * torsoRat
    let pixel_to_cm := 25 / max effective_height 1
    let body_length_cm :=
      pyRoundTo 1 (w * pixel_to_cm * (if pf.1 = "lying" ∨ pf.1 = "curled" then 1 else 9/10))
    let chest_base := mathPi * (w * pixel_to_cm) * (3/5)
    let chest_cm := pyRoundTo 1 (chest_base * pf.2)
    let neck_cm := pyRoundTo 1 (chest_cm * (62/100))
    let waist_cm := pyRoundTo 1 (chest_cm * (85/100))
    let back_length_cm := pyRoundTo 1 (body_length_cm * (3/4))
    let leg_length_cm := pyRoundTo 1 (h * pixel_to_cm * (35/100))
    let sizeRat := min 1 ((w * h) / (300 * 300))
    let aspect_score : ℚ := if 1/2 < w / h ∧ w / h < 2 then 1 else 3/5
    let posture_clarity : ℚ := if pf.1 = "standing" ∨ pf.1 = "sitting" then 9/10 else 7/10
    let confidence := pyRoundTo 2 (sizeRat * (1/2) + aspect_score * (3/10) + posture_clarity * (1/5))
    let quality_flag :=
      if 17/20 < confidence then "excellent"
      else if 3/4 < confidence then "good"
      else if 3/5 < confidence then "medium"
      else "poor"
    some ⟨pf.1, chest_cm, neck_cm, waist_cm, body_length_cm, back_length_cm,
          leg_length_cm, confidence, quality_flag⟩

/-- The record returned by `estimate_body_condition`. -/
structure BodyCondition where
  bcs_score : ℤ
  condition : String
  description : String
  bmi : ℚ
deriving DecidableEq, Repr

/-- `estimate_body_condition(chest_cm, weight, body_length_cm)` from
`analysis_cat.py`.  The source computes `bmi = (weight * 1000) /
(body_length_cm ** 2)`; when `body_length_cm ** 2` is zero Python raises
`ZeroDivisionError`, modelled by `none`. -/
def estimate_body_condition (chest_cm weight body_length_cm : ℚ) : Option BodyCondition :=
  if body_length_cm ^ 2 = 0 then none
  else
    let bmi := weight * 1000 / body_length_cm ^ 2
    if bmi < 7/2 then some ⟨3, "underweight", "ผอมเกินไป ควรเพิ่มน้ำหนัก", pyRoundTo 2 bmi⟩
    else if bmi < 9/2 then some ⟨4, "lean", "ผอม แต่ยังอยู่ในเกณฑ์ปกติ", pyRoundTo 2 bmi⟩
    else if bmi < 6 then some ⟨5, "ideal", "น้ำหนักเหมาะสม สุขภาพดี", pyRoundTo 2 bmi⟩
    else if bmi < 15/2 then some ⟨6, "overweight", "น้ำหนักเกินเล็กน้อย ควรควบคุม", pyRoundTo 2 bmi⟩
    else if bmi < 9 then some ⟨7, "overweight", "น้ำหนักเกิน ควรลดน้ำหนัก", pyRoundTo 2 bmi⟩
    else some ⟨8, "obese", "อ้วน ควรปรึกษาสัตวแพทย์", pyRoundTo 2 bmi⟩

/-- The `BREED_MODIFIER` dict of `analysis_cat.py`, as an association list. -/
def BREED_MODIFIER : List (String × ℚ) :=
  [("maine_coon", 23/20), ("ragdoll", 11/10), ("british_shorthair", 21/20),
   ("persian", 103/100), ("siamese", 19/20), ("bengal", 51/50),
   ("scottish_fold", 1), ("russian_blue", 49/50), ("sphynx", 93/100),
   ("munchkin", 17/20), ("domestic_shorthair", 1), ("domestic_longhair", 51/50),
   ("unknown", 1)]

/-- The `AGE_WEIGHT_MODIFIER` dict of `analysis_cat.py`. -/
def AGE_WEIGHT_MODIFIER : List (String × ℚ) :=
  [("kitten", 3/10), ("young", 7/10), ("adult", 1), ("senior", 19/20)]

/-- `estimate_weight(chest_cm, body_length_cm, breed, age_category)` from
`analysis_cat.py`.  `dict.get(k, 1.0)` is `(List.lookup k _).getD 1`. -/
def estimate_weight (chest_cm body_length_cm : ℚ) (breed age_category : String) : ℚ :=
  let base_weight := chest_cm ^ 2 * body_length_cm / 3000
  let breed_adjusted := base_weight * ((List.lookup breed BREED_MODIFIER).getD 1)
  let age_adjusted := breed_adjusted * ((List.lookup age_category AGE_WEIGHT_MODIFIER).getD 1)
  pyRoundTo 2 age_adjusted

/-- The per-metric size classifier by weight in `determine_size`. -/
def weight_size (weight : ℚ) : String :=
  if weight < 5/2 then "XS"
  else if weight < 4 then "S"
  else if weight < 6 then "M"
  else if weight < 17/2 then "L"
  else "XL"

/-- The per-metric size classifier by chest girth in `determine_size`. -/
def chest_size (chest_cm : ℚ) : String :=
  if chest_cm < 24 then "XS"
  else if chest_cm < 32 then "S"
  else if chest_cm < 38 then "M"
  else if chest_cm < 45 then "L"
  else "XL"

/-- The per-metric size classifier by neck girth in `determine_size`. -/
def neck_size (neck_cm : ℚ) : String :=
  if neck_cm < 15 then "XS"
  else if neck_cm < 20 then "S"
  else if neck_cm < 24 then "M"
  else if neck_cm < 28 then "L"
  else "XL"

/-- The vote list `sizes = [weight_size, chest_size, chest_size, neck_size]`
built inside `determine_size` (chest counted twice). -/
def sizesList (weight chest_cm neck_cm : ℚ) : List String :=
  [weight_size weight, chest_size chest_cm, chest_size chest_cm, neck_size neck_cm]

/-- The running maximum of Python `max(iterable, key=sizes.count)`: the
current best `b` is replaced by the next element `s` only when `s` has a
strictly larger count. -/
def pyMax1 (sizes : List String) (b : String) : List String → String
  | [] => b
  | s :: os => if sizes.count b < sizes.count s then pyMax1 sizes s os else pyMax1 sizes b os

/-- Python `max(iterable, key=sizes.count)`: take the first element of the
iteration order as the initial best, then scan.  `none` models the
`ValueError` Python raises when the iterable is empty. -/
def pyMaxByCount (order sizes : List String) : Option String :=
  match order with
  | [] => none
  | s :: os => some (pyMax1 sizes s os)

/-- `order` is a possible CPython iteration order of `set(sizes)`: it lists
the distinct elements of `sizes`, each exactly once, in some order.  (Which
order CPython actually produces depends on the process's string-hash seed.) -/
def SetOrder (order sizes : List String) : Prop :=
  order.Nodup ∧ (∀ s ∈ order, s ∈ sizes) ∧ ∀ s ∈ sizes, s ∈ order

instance (order sizes : List String) : Decidable (SetOrder order sizes) := by
  unfold SetOrder; infer_instance

/-- The value part of the `size_ranges` dict in `determine_size`. -/
structure SizeRange where
  weight : String
  chest : String
  neck : String
deriving DecidableEq, Repr

/-- The `size_ranges` dict of `determine_size`, as an association list. -/
def SIZE_RANGES : List (String × SizeRange) :=
  [("XS", ⟨"< 2.5 kg", "< 24 cm", "< 15 cm"⟩),
   ("S", ⟨"2.5-4 kg", "24-32 cm", "15-20 cm"⟩),
   ("M", ⟨"4-6 kg", "32-38 cm", "20-24 cm"⟩),
   ("L", ⟨"6-8.5 kg", "38-45 cm", "24-28 cm"⟩),
   ("XL", ⟨"> 8.5 kg", "> 45 cm", "> 28 cm"⟩)]

/-- The record returned by `determine_size`. -/
structure SizeInfo where
  size_category : String
  size_ranges : SizeRange
  recommendation : String
deriving DecidableEq, Repr

/-- `determine_size(weight, chest_cm, neck_cm)` from `analysis_cat.py`.
`size_category = max(set(sizes), key=sizes.count)`; the hash-seed dependent
iteration order of `set(sizes)` is the extra parameter `order`.  `none`
models `max` on an empty iterable or a `KeyError` on `size_ranges`. -/
def determine_size (weight chest_cm neck_cm : ℚ) (order : List String) : Option SizeInfo :=
  let sizes := sizesList weight chest_cm neck_cm
  match pyMaxByCount order sizes with
  | none => none
  | some size_category =>
    match List.lookup size_category SIZE_RANGES with
    | none => none
    | some r =>
      some ⟨size_category, r,
            "แนะนำขนาด " ++ size_category ++ " สำหรับเสื้อผ้า และปลอกคอ"⟩

/-- Python's default `str.strip()` whitespace test, on the ASCII whitespace
characters (space, tab, newline, carriage return, vertical tab, form feed). -/
def pyIsSpace (c : Char) : Bool :=
  c.toNat = 32 || c.toNat = 9 || c.toNat = 10 || c.toNat = 13 || c.toNat = 11 || c.toNat = 12

/-- `str.strip()`: drop leading and trailing whitespace. -/
def pyStrip (l : List Char) : List Char :=
  (l.dropWhile pyIsSpace).rdropWhile pyIsSpace

/-- `str.lower()` on one character (ASCII range, which is all the transform
the colour strings need). -/
def pyToLower (c : Char) : Char :=
  if 65 ≤ c.toNat ∧ c.toNat ≤ 90 then Char.ofNat (c.toNat + 32) else c

/-- `str.split(sep)` for a one-character separator. -/
def pySplitOn (sep : Char) : List Char → List (List Char)
  | [] => [[]]
  | c :: cs =>
    match pySplitOn sep cs with
    | [] => [[c]]
    | a :: as => if c = sep then [] :: a :: as else (c :: a) :: as

/-- `cat_color.replace(",", "_")` on one character. -/
def commaToUnderscore (c : Char) : Char := if c = ',' then '_' else c

/-- `sep.join(parts)` for a one-character separator. -/
def pyJoin (sep : Char) : List (List Char) → List Char
  | [] => []
  | [a] => a
  | a :: b :: rest => a ++ sep :: pyJoin sep (b :: rest)

/-- `process_cat_color(cat_color)` from `analysis_cat.py`, on `List Char`
(`none` is Python's `None`; `if not cat_color` catches both `None` and the
empty string). -/
def process_cat_color : Option (List Char) → List Char
  | none => "unknown".data
  | some s =>
    if s = [] then "unknown".data
    else
      let colors := (pySplitOn '_' (s.map commaToUnderscore)).map
        (fun c => (pyStrip c).map pyToLower)
      let colors := colors.filter (fun c => c ≠ [])
      if colors = [] then "unknown".data
      else pyJoin '_' colors

/-- The record returned by `analyze_cat` (the fixed-string metadata fields
`analysis_method`/`analysis_version`/`image_path` included). -/
structure CatAnalysisResult where
  firebase_uid : String
  breed : String
  cat_color : String
  age_category : String
  weight_kg : ℚ
  body_condition_score : ℤ
  body_condition : String
  body_condition_description : String
  bmi : ℚ
  chest_cm : ℚ
  neck_cm : ℚ
  waist_cm : ℚ
  body_length_cm : ℚ
  back_length_cm : ℚ
  leg_length_cm : ℚ
  size_category : String
  size_ranges : SizeRange
  size_recommendation : String
  posture : String
  confidence : ℚ
  quality_flag : String
  bounding_box : List ℚ
  analysis_method : String
  analysis_version : String
  image_path : String
deriving DecidableEq, Repr

/-- `analyze_cat(...)` from `analysis_cat.py`, with the bounding box passed
as four components and the hash-seed dependent `set` iteration order of
`determine_size` threaded through as `order`.  `none` models any raise in
the pipeline. -/
def analyze_cat (image_path : String) (x1 y1 x2 y2 : ℚ) (firebase_uid : String)
    (cat_color : Option String) (breed : String) (age_category : String)
    (order : List String) : Option CatAnalysisResult :=
  let processed_color := String.mk (process_cat_color (cat_color.map String.data))
  match estimate_body_metrics x1 y1 x2 y2 with
  | none => none
  | some metrics =>
    let weight := estimate_weight metrics.chest_cm metrics.body_length_cm breed age_category
    match estimate_body_condition metrics.chest_cm weight metrics.body_length_cm with
    | none => none
    | some body_condition =>
      match determine_size weight metrics.chest_cm metrics.neck_cm order with
      | none => none
      | some size_info =>
        some ⟨firebase_uid, breed, processed_color, age_category,
              weight, body_condition.bcs_score, body_condition.condition,
              body_condition.description, body_condition.bmi,
              metrics.chest_cm, metrics.neck_cm, metrics.waist_cm,
              metrics.body_length_cm, metrics.back_length_cm, metrics.leg_length_cm,
              size_info.size_category, size_info.size_ranges, size_info.recommendation,
              metrics.posture, metrics.confidence, metrics.quality_flag,
              [x1, y1, x2, y2],
              "cv_heuristic_v5_professional", "5.0", image_path⟩

/-! ## Specification-side definitions

These follow the wording of the specification document (not the source);
they exist so that refinement claims can compare source behaviour against
the spec's tables. -/

/-- Spec §4.5 step-function table, score column: `<3.5→3, <4.5→4, <6.0→5,
<7.5→6, <9.0→7, ≥9.0→8` (ordered, first match). -/
def bcsSpecScore (bmi : ℚ) : ℤ :=
  if bmi < 7/2 then 3
  else if bmi < 9/2 then 4
  else if bmi < 6 then 5
  else if bmi < 15/2 then 6
  else if bmi < 9 then 7
  else 8

/-- Spec §4.5 step-function table, condition column. -/
def bcsSpecCondition (bmi : ℚ) : String :=
  if bmi < 7/2 then "underweight"
  else if bmi < 9/2 then "lean"
  else if bmi < 6 then "ideal"
  else if bmi < 15/2 then "overweight"
  else if bmi < 9 then "overweight"
  else "obese"

/-- Spec §4.2 posture policy table, as a function of `ratio = w / h`:
`>1.6 → lying 0.85; 1.4<ratio≤1.6 → curled 0.88; <0.8 → sitting 0.92;
0.8≤ratio<1.0 → standing 1.0; ratio∈[1.0,1.4] → standing 0.98`. -/
def classifyPostureSpec (r : ℚ) : String × ℚ :=
  if 8/5 < r then ("lying", 17/20)
  else if 7/5 < r ∧ r ≤ 8/5 then ("curled", 22/25)
  else if r < 4/5 then ("sitting", 23/25)
  else if 4/5 ≤ r ∧ r < 1 then ("standing", 1)
  else ("standing", 49/50)

/-- Spec §4.4: the age table `kitten=0.3, young=0.7, adult=1.0, senior=0.95`,
with "default 1.0 for unrecognized categories". -/
def ageModifierSpec (age_category : String) : ℚ :=
  if age_category = "kitten" then 3/10
  else if age_category = "young" then 7/10
  else if age_category = "adult" then 1
  else if age_category = "senior" then 19/20
  else 1

/-- Spec §4.4: "breed (string key into a fixed modifier table, default 1.0
for unknown breeds)" — the fixed table is `BREED_MODIFIER`. -/
def breedModifierSpec (breed : String) : ℚ :=
  (List.lookup breed BREED_MODIFIER).getD 1

/-- Spec §4.4 formula: `weight = (chest_cm² × body_length_cm / 3000) ×
breedModifier × ageModifier`, rounded to 2 decimals. -/
def estimateWeightSpec (chest_cm body_length_cm : ℚ) (breed age_category : String) : ℚ :=
  pyRoundTo 2 (chest_cm ^ 2 * body_length_cm / 3000 * breedModifierSpec breed
    * ageModifierSpec age_category)

/-- Spec §4.1: split the colour string on both separators "," and "_". -/
def splitOnSeps : List Char → List (List Char)
  | [] => [[]]
  | c :: cs =>
    match splitOnSeps cs with
    | [] => [[c]]
    | a :: as => if c = ',' ∨ c = '_' then [] :: a :: as else (c :: a) :: as

/-- Spec §4.1 colour normaliser: absent or empty input gives "unknown";
otherwise the segments (split on "," and "_", trimmed, lowercased, empty
segments dropped) are joined by "_", and if no segment survives the result
is "unknown". -/
def normalizeColorSpec : Option (List Char) → List Char
  | none => "unknown".data
  | some s =>
    if s = [] then "unknown".data
    else
      let segs := ((splitOnSeps s).map (fun seg => (pyStrip seg).map pyToLower)).filter
        (fun seg => seg ≠ [])
      if segs = [] then "unknown".data
      else pyJoin '_' segs

/-! ## Supporting lemmas -/

/-- `estimate_posture` returns one of exactly five `(posture, factor)`
pairs. -/
theorem estimate_posture_cases (w h : ℚ) :
    estimate_posture w h = ("lying", 17/20) ∨ estimate_posture w h = ("curled", 22/25) ∨
    estimate_posture w h = ("sitting", 23/25) ∨ estimate_posture w h = ("standing", 1) ∨
    estimate_posture w h = ("standing", 49/50) := by
  unfold estimate_posture
  dsimp only
  split_ifs <;> simp

/-- The age-modifier lookup of the source agrees with the spec's table. -/
theorem getD_lookup_age (a : String) :
    (List.lookup a AGE_WEIGHT_MODIFIER).getD 1 = ageModifierSpec a := by
  unfold AGE_WEIGHT_MODIFIER ageModifierSpec
  by_cases h1 : a = "kitten"
  · subst h1; rfl
  · by_cases h2 : a = "young"
    · subst h2; rfl
    · by_cases h3 : a = "adult"
      · subst h3; rfl
      · by_cases h4 : a = "senior"
        · subst h4; rfl
        · simp only [List.lookup, beq_eq_false_iff_ne.mpr h1, beq_eq_false_iff_ne.mpr h2,
            beq_eq_false_iff_ne.mpr h3, beq_eq_false_iff_ne.mpr h4, if_neg h1, if_neg h2,
            if_neg h3, if_neg h4]
          rfl

/-- Evaluation rule for `pyRound` when the fractional part is below 1/2. -/
theorem pyRound_eq_down (q : ℚ) (z : ℤ) (h1 : (z : ℚ) ≤ q) (h2 : q - z < 1/2) :
    pyRound q = z := by
  unfold pyRound
  dsimp only
  rw [Int.floor_eq_iff.mpr ⟨h1, by linarith⟩, if_pos h2]

/-- Evaluation rule for `pyRound` when the fractional part is above 1/2. -/
theorem pyRound_eq_up (q : ℚ) (z : ℤ) (h1 : 1/2 < q - z) (h2 : q < z + 1) :
    pyRound q = z + 1 := by
  unfold pyRound
  dsimp only
  rw [Int.floor_eq_iff.mpr ⟨by linarith, by linarith⟩,
    if_neg (by linarith), if_pos h1]

/-- Evaluation rule for `pyRoundTo` when the scaled fractional part is below
1/2. -/
theorem pyRoundTo_eq_down (n : ℕ) (q r : ℚ) (z : ℤ) (h1 : (z : ℚ) ≤ q * 10 ^ n)
    (h2 : q * 10 ^ n - z < 1/2) (h3 : (z : ℚ) / 10 ^ n = r) :
    pyRoundTo n q = r := by
  unfold pyRoundTo
  rw [pyRound_eq_down _ _ h1 h2, h3]

/-- Evaluation rule for `pyRoundTo` when the scaled fractional part is above
1/2. -/
theorem pyRoundTo_eq_up (n : ℕ) (q r : ℚ) (z : ℤ) (h1 : 1/2 < q * 10 ^ n - z)
    (h2 : q * 10 ^ n < z + 1) (h3 : ((z : ℚ) + 1) / 10 ^ n = r) :
    pyRoundTo n q = r := by
  unfold pyRoundTo
  rw [pyRound_eq_up _ _ h1 h2, ← h3]
  push_cast
  ring

/-- The `torso_ratio` dict lookup in `estimate_body_metrics` never raises:
`estimate_posture` only produces the four keys of the dict. -/
theorem estimate_body_metrics_total (x1 y1 x2 y2 : ℚ) :
    ∃ m, estimate_body_metrics x1 y1 x2 y2 = some m := by
  unfold estimate_body_metrics
  dsimp only
  rcases estimate_posture_cases (max (x2 - x1) 1) (max (y2 - y1) 1) with hp | hp | hp | hp | hp <;>
    rw [hp] <;> exact ⟨_, rfl⟩

/-- Concrete evaluation of `estimate_body_metrics` on the bounding box
`[0, 0, 80, 500/11]` (a wide box classified `lying`; the height is chosen so
that one pixel is exactly one centimetre). -/
theorem metrics_eval_A :
    estimate_body_metrics 0 0 80 (500/11)
      = some ⟨"lying", 641/5, 159/2, 109, 80, 60, 159/10, 23/50, "poor"⟩ := by
  have hp : estimate_posture (max ((80:ℚ) - 0) 1) (max ((500/11 : ℚ) - 0) 1) = ("lying", 17/20) := by
    unfold estimate_posture
    dsimp only
    norm_num [max_def]
  have hchest : pyRoundTo 1 (mathPi * ((((80:ℚ) - 0) ⊔ 1)
      * (25 / ((((500/11:ℚ) - 0) ⊔ 1) * (11/20) ⊔ 1))) * (3/5) * (17/20)) = 641/5 := by
    refine pyRoundTo_eq_up 1 _ _ 1281 ?_ ?_ ?_ <;> norm_num [mathPi, max_def]
  have hbody : pyRoundTo 1 ((((80:ℚ) - 0) ⊔ 1)
      * (25 / ((((500/11:ℚ) - 0) ⊔ 1) * (11/20) ⊔ 1)) * 1) = 80 := by
    refine pyRoundTo_eq_down 1 _ _ 800 ?_ ?_ ?_ <;> norm_num [max_def]
  have hconf : pyRoundTo 2 ((1 ⊓ (((80:ℚ) - 0) ⊔ 1) * (((500/11:ℚ) - 0) ⊔ 1) / (300 * 300)) * (1/2)
      + (if 1/2 < (((80:ℚ) - 0) ⊔ 1) / (((500/11:ℚ) - 0) ⊔ 1)
            ∧ (((80:ℚ) - 0) ⊔ 1) / (((500/11:ℚ) - 0) ⊔ 1) < 2 then 1 else 3/5) * (3/10)
      + (7/10 : ℚ) * (1/5)) = 23/50 := by
    refine pyRoundTo_eq_down 2 _ _ 46 ?_ ?_ ?_ <;> norm_num [max_def, min_def]
  unfold estimate_body_metrics
  dsimp only
  rw [hp]
  dsimp only
  rw [show List.lookup "lying" TORSO_RATIO_TABLE = some (11/20) from rfl]
  dsimp only
  simp only [show ("lying" = "standing" ∨ "lying" = "sitting") = False from eq_false (by decide),
    eq_self_iff_true, true_or, if_true, if_false]
  rw [hchest, hbody, hconf]
  simp only [Option.some.injEq, BodyMetrics.mk.injEq]
  refine ⟨trivial, trivial, ?_, ?_, trivial, ?_, ?_, trivial, ?_⟩
  · refine pyRoundTo_eq_up 1 _ _ 794 ?_ ?_ ?_ <;> norm_num
  · refine pyRoundTo_eq_up 1 _ _ 1089 ?_ ?_ ?_ <;> norm_num
  · refine pyRoundTo_eq_down 1 _ _ 600 ?_ ?_ ?_ <;> norm_num
  · refine pyRoundTo_eq_down 1 _ _ 159 ?_ ?_ ?_ <;> norm_num [max_def]
  · norm_num

/-- Concrete evaluation of `estimate_body_metrics` on the extreme
tall-and-thin bounding box `[0, 0, 1, 1000]`: the derived body length rounds
to 0.0. -/
theorem metrics_eval_B :
    estimate_body_metrics 0 0 1 1000
      = some ⟨"sitting", 1/10, 1/10, 1/10, 0, 0, 73/5, 37/100, "poor"⟩ := by
  have hp : estimate_posture (max ((1:ℚ) - 0) 1) (max ((1000 : ℚ) - 0) 1) = ("sitting", 23/25) := by
    unfold estimate_posture
    dsimp only
    norm_num [max_def]
  have hchest : pyRoundTo 1 (mathPi * ((((1:ℚ) - 0) ⊔ 1)
      * (25 / ((((1000:ℚ) - 0) ⊔ 1) * (3/5) ⊔ 1))) * (3/5) * (23/25)) = 1/10 := by
    refine pyRoundTo_eq_up 1 _ _ 0 ?_ ?_ ?_ <;> norm_num [mathPi, max_def]
  have hbody : pyRoundTo 1 ((((1:ℚ) - 0) ⊔ 1)
      * (25 / ((((1000:ℚ) - 0) ⊔ 1) * (3/5) ⊔ 1)) * (9/10)) = 0 := by
    refine pyRoundTo_eq_down 1 _ _ 0 ?_ ?_ ?_ <;> norm_num [max_def]
  have hconf : pyRoundTo 2 ((1 ⊓ (((1:ℚ) - 0) ⊔ 1) * (((1000:ℚ) - 0) ⊔ 1) / (300 * 300)) * (1/2)
      + (if 1/2 < (((1:ℚ) - 0) ⊔ 1) / (((1000:ℚ) - 0) ⊔ 1)
            ∧ (((1:ℚ) - 0) ⊔ 1) / (((1000:ℚ) - 0) ⊔ 1) < 2 then 1 else 3/5) * (3/10)
      + (9/10 : ℚ) * (1/5)) = 37/100 := by
    refine pyRoundTo_eq_up 2 _ _ 36 ?_ ?_ ?_ <;> norm_num [max_def, min_def]
  unfold estimate_body_metrics
  dsimp only
  rw [hp]
  dsimp only
  rw [show List.lookup "sitting" TORSO_RATIO_TABLE = some (3/5) from rfl]
  dsimp only
  simp only [show ("sitting" = "lying" ∨ "sitting" = "curled") = False from eq_false (by decide),
    eq_self_iff_true, or_true, if_true, if_false]
  rw [hchest, hbody, hconf]
  simp only [Option.some.injEq, BodyMetrics.mk.injEq]
  refine ⟨trivial, trivial, ?_, ?_, trivial, ?_, ?_, trivial, ?_⟩
  · refine pyRoundTo_eq_up 1 _ _ 0 ?_ ?_ ?_ <;> norm_num
  · refine pyRoundTo_eq_up 1 _ _ 0 ?_ ?_ ?_ <;> norm_num
  · refine pyRoundTo_eq_down 1 _ _ 0 ?_ ?_ ?_ <;> norm_num
  · refine pyRoundTo_eq_up 1 _ _ 145 ?_ ?_ ?_ <;> norm_num [max_def]
  · norm_num

/-- Concrete evaluation of `estimate_weight` on the box-A measurements. -/
theorem weight_eval_A :
    estimate_weight (641/5) 80 "unknown" "adult" = 43827/100 := by
  unfold estimate_weight
  dsimp only
  rw [show (List.lookup "unknown" BREED_MODIFIER).getD 1 = 1 from rfl,
    show (List.lookup "adult" AGE_WEIGHT_MODIFIER).getD 1 = 1 from rfl]
  refine pyRoundTo_eq_down 2 _ _ 43827 ?_ ?_ ?_ <;> norm_num

/-- Scan invariant of Python `max(..., key=sizes.count)`: the result is the
initial element or a scanned element, its count dominates the initial
element's count and every scanned element's count. -/
theorem pyMax1_spec (sizes : List String) :
    ∀ (os : List String) (b : String),
      (pyMax1 sizes b os = b ∨ pyMax1 sizes b os ∈ os) ∧
      sizes.count b ≤ sizes.count (pyMax1 sizes b os) ∧
      ∀ s ∈ os, sizes.count s ≤ sizes.count (pyMax1 sizes b os) := by
  intro os
  induction os with
  | nil => exact fun b => ⟨Or.inl rfl, le_refl _, by simp⟩
  | cons s os ih =>
    intro b
    unfold pyMax1
    split_ifs with h
    · obtain ⟨h1, h2, h3⟩ := ih s
      refine ⟨?_, le_trans (le_of_lt h) h2, ?_⟩
      · rcases h1 with h1 | h1
        · exact Or.inr (by simp [h1])
        · exact Or.inr (List.mem_cons_of_mem _ h1)
      · intro t ht
        rcases List.mem_cons.mp ht with rfl | ht
        · exact h2
        · exact h3 t ht
    · obtain ⟨h1, h2, h3⟩ := ih b
      refine ⟨?_, h2, ?_⟩
      · rcases h1 with h1 | h1
        · exact Or.inl h1
        · exact Or.inr (List.mem_cons_of_mem _ h1)
      · intro t ht
        rcases List.mem_cons.mp ht with rfl | ht
        · exact le_trans (not_lt.mp h) h2
        · exact h3 t ht

/-- `weight_size` only returns the five size labels. -/
theorem weight_size_mem (q : ℚ) :
    weight_size q = "XS" ∨ weight_size q = "S" ∨ weight_size q = "M" ∨
    weight_size q = "L" ∨ weight_size q = "XL" := by
  unfold weight_size
  split_ifs <;> simp

/-- `chest_size` only returns the five size labels. -/
theorem chest_size_mem (q : ℚ) :
    chest_size q = "XS" ∨ chest_size q = "S" ∨ chest_size q = "M" ∨
    chest_size q = "L" ∨ chest_size q = "XL" := by
  unfold chest_size
  split_ifs <;> simp

/-- `neck_size` only returns the five size labels. -/
theorem neck_size_mem (q : ℚ) :
    neck_size q = "XS" ∨ neck_size q = "S" ∨ neck_size q = "M" ∨
    neck_size q = "L" ∨ neck_size q = "XL" := by
  unfold neck_size
  split_ifs <;> simp

/-- Every vote in `sizesList` is one of the five size labels. -/
theorem sizesList_mem (w c n : ℚ) (s : String) (hs : s ∈ sizesList w c n) :
    s = "XS" ∨ s = "S" ∨ s = "M" ∨ s = "L" ∨ s = "XL" := by
  simp only [sizesList, List.mem_cons, List.not_mem_nil, or_false] at hs
  rcases hs with rfl | rfl | rfl | rfl
  · exact weight_size_mem w
  · exact chest_size_mem c
  · exact chest_size_mem c
  · exact neck_size_mem n

/-- The `size_ranges` dict lookup succeeds on every size label. -/
theorem lookup_SIZE_RANGES (s : String)
    (hs : s = "XS" ∨ s = "S" ∨ s = "M" ∨ s = "L" ∨ s = "XL") :
    ∃ r, List.lookup s SIZE_RANGES = some r := by
  rcases hs with rfl | rfl | rfl | rfl | rfl <;> exact ⟨_, rfl⟩

/-- Under any admissible `set` iteration order, `determine_size` succeeds and
returns a maximal-count element of the vote multiset. -/
theorem determine_size_mode_helper (weight chest_cm neck_cm : ℚ) (order : List String)
    (ho : SetOrder order (sizesList weight chest_cm neck_cm)) :
    ∃ info, determine_size weight chest_cm neck_cm order = some info ∧
      info.size_category ∈ sizesList weight chest_cm neck_cm ∧
      ∀ s ∈ sizesList weight chest_cm neck_cm,
        (sizesList weight chest_cm neck_cm).count s
          ≤ (sizesList weight chest_cm neck_cm).count info.size_category := by
  obtain ⟨hnd, hsub, hsup⟩ := ho
  have hwmem : weight_size weight ∈ sizesList weight chest_cm neck_cm := by simp [sizesList]
  have hne : order ≠ [] := by
    intro h
    exact absurd (hsup _ hwmem) (by simp [h])
  obtain ⟨b, os, rfl⟩ := List.exists_cons_of_ne_nil hne
  unfold determine_size pyMaxByCount
  dsimp only
  obtain ⟨h1, h2, h3⟩ := pyMax1_spec (sizesList weight chest_cm neck_cm) os b
  have hmem : pyMax1 (sizesList weight chest_cm neck_cm) b os ∈ sizesList weight chest_cm neck_cm := by
    rcases h1 with h1 | h1
    · rw [h1]
      exact hsub _ (List.mem_cons_self b os)
    · exact hsub _ (List.mem_cons_of_mem _ h1)
  obtain ⟨r, hr⟩ := lookup_SIZE_RANGES _ (sizesList_mem _ _ _ _ hmem)
  rw [hr]
  refine ⟨_, rfl, hmem, ?_⟩
  intro s hs
  rcases List.mem_cons.mp (hsup _ hs) with rfl | hs2
  · exact h2
  · exact h3 _ hs2

/-- Concrete vote list at `weight = 3, chest = 33, neck = 16`: a genuine
2-2 tie between S and M. -/
theorem sizesList_eval_1 : sizesList 3 33 16 = ["S", "M", "M", "S"] := by
  unfold sizesList weight_size chest_size neck_size
  norm_num

/-- `estimate_body_condition` succeeds whenever the body length is
nonzero. -/
theorem estimate_body_condition_some (c w l : ℚ) (hl : l ≠ 0) :
    ∃ r, estimate_body_condition c w l = some r := by
  have hl2 : l ^ 2 ≠ 0 := pow_ne_zero _ hl
  unfold estimate_body_condition
  rw [if_neg hl2]
  dsimp only
  split_ifs <;> exact ⟨_, rfl⟩

/-- `estimate_body_condition` raises `ZeroDivisionError` when the body
length is zero. -/
theorem estimate_body_condition_zero_length (c w : ℚ) :
    estimate_body_condition c w 0 = none := by
  unfold estimate_body_condition
  rw [if_pos (by norm_num)]

/-! ### Character and string lemmas for the colour normaliser -/

/-- `Char.ofNat` round-trips on the shifted uppercase range. -/
theorem ofNat_toNat_shift (c : Char) (h1 : 65 ≤ c.toNat) (h2 : c.toNat ≤ 90) :
    (Char.ofNat (c.toNat + 32)).toNat = c.toNat + 32 := by
  have key : ∀ n, 65 ≤ n → n ≤ 90 → (Char.ofNat (n + 32)).toNat = n + 32 := by
    intro n hn1 hn2
    interval_cases n <;> rfl
  exact key _ h1 h2

/-- Lowercasing does not change whether a character is whitespace. -/
theorem pyIsSpace_pyToLower (c : Char) : pyIsSpace (pyToLower c) = pyIsSpace c := by
  unfold pyToLower
  split_ifs with h
  · have hL : pyIsSpace (Char.ofNat (c.toNat + 32)) = false := by
      unfold pyIsSpace
      rw [ofNat_toNat_shift c h.1 h.2]
      simp
      omega
    have hR : pyIsSpace c = false := by
      unfold pyIsSpace
      simp
      omega
    rw [hL, hR]
  · rfl

/-- `str.lower()` is idempotent on characters. -/
theorem pyToLower_idem (c : Char) : pyToLower (pyToLower c) = pyToLower c := by
  by_cases h : 65 ≤ c.toNat ∧ c.toNat ≤ 90
  · have h1 : pyToLower c = Char.ofNat (c.toNat + 32) := by
      unfold pyToLower
      rw [if_pos h]
    rw [h1]
    unfold pyToLower
    rw [if_neg (by rw [ofNat_toNat_shift c h.1 h.2]; omega)]
  · have h1 : pyToLower c = c := by
      unfold pyToLower
      rw [if_neg h]
    rw [h1, h1]

/-- Lowercasing cannot produce a character below code point 97 (such as the
separators) from a different character. -/
theorem pyToLower_ne_of_lt (c d : Char) (hd : d.toNat < 97) (h : c ≠ d) :
    pyToLower c ≠ d := by
  by_cases hc : 65 ≤ c.toNat ∧ c.toNat ≤ 90
  · have h1 : pyToLower c = Char.ofNat (c.toNat + 32) := by
      unfold pyToLower
      rw [if_pos hc]
    rw [h1]
    intro he
    have h2 := congrArg Char.toNat he
    rw [ofNat_toNat_shift c hc.1 hc.2] at h2
    omega
  · have h1 : pyToLower c = c := by
      unfold pyToLower
      rw [if_neg hc]
    rw [h1]
    exact h

/-- A prefix of a `dropWhile`-fixed list is `dropWhile`-fixed. -/
theorem dropWhile_eq_self_of_isPrefixOf {p : Char → Bool} (x y : List Char)
    (hxy : x <+: y) (hy : y.dropWhile p = y) : x.dropWhile p = x := by
  cases x with
  | nil => rfl
  | cons c t =>
    obtain ⟨r, rfl⟩ := hxy
    rw [List.cons_append] at hy
    rw [List.dropWhile_cons] at hy ⊢
    split_ifs at hy ⊢ with hc
    · exfalso
      have hlen := congrArg List.length hy
      simp only [List.length_cons] at hlen
      have hle : (List.dropWhile p (t ++ r)).length ≤ (t ++ r).length :=
        (List.dropWhile_sublist _).length_le
      omega
    · rfl

/-- `str.strip()` is idempotent. -/
theorem pyStrip_idem (l : List Char) : pyStrip (pyStrip l) = pyStrip l := by
  unfold pyStrip
  rw [dropWhile_eq_self_of_isPrefixOf _ _ (List.rdropWhile_prefix _ _)
    (List.dropWhile_idempotent _ _), List.rdropWhile_idempotent]

/-- `dropWhile` commutes with a map that preserves the predicate. -/
theorem dropWhile_map_of (f : Char → Char) (p : Char → Bool) (h : ∀ c, p (f c) = p c)
    (l : List Char) : (l.map f).dropWhile p = (l.dropWhile p).map f := by
  induction l with
  | nil => rfl
  | cons c cs ih =>
    simp only [List.map_cons, List.dropWhile_cons, h c]
    split_ifs with hc
    · exact ih
    · rfl

/-- `rdropWhile` commutes with a map that preserves the predicate. -/
theorem rdropWhile_map_of (f : Char → Char) (p : Char → Bool) (h : ∀ c, p (f c) = p c)
    (l : List Char) : (l.map f).rdropWhile p = (l.rdropWhile p).map f := by
  unfold List.rdropWhile
  rw [← List.map_reverse, dropWhile_map_of f p h, List.map_reverse]

/-- `str.strip()` commutes with `str.lower()`. -/
theorem pyStrip_map_pyToLower (l : List Char) :
    pyStrip (l.map pyToLower) = (pyStrip l).map pyToLower := by
  unfold pyStrip
  rw [dropWhile_map_of pyToLower pyIsSpace pyIsSpace_pyToLower,
    rdropWhile_map_of pyToLower pyIsSpace pyIsSpace_pyToLower]

/-- `str.lower()` is idempotent on strings. -/
theorem map_pyToLower_idem (l : List Char) :
    (l.map pyToLower).map pyToLower = l.map pyToLower := by
  induction l with
  | nil => rfl
  | cons c cs ih => simp only [List.map_cons, pyToLower_idem, ih]

/-- A generic pointwise-identity map is the identity. -/
theorem map_eq_self_of {α : Type} (f : α → α) (l : List α) (h : ∀ a ∈ l, f a = a) :
    l.map f = l := by
  induction l with
  | nil => rfl
  | cons a t ih =>
    simp only [List.map_cons]
    rw [h a (List.mem_cons_self a t), ih fun x hx => h x (List.mem_cons_of_mem _ hx)]

/-- Characters of a stripped string come from the original string. -/
theorem mem_of_mem_pyStrip (l : List Char) (c : Char) (hc : c ∈ pyStrip l) : c ∈ l := by
  unfold pyStrip at hc
  exact (List.dropWhile_sublist _).subset
    ((List.rdropWhile_prefix pyIsSpace (l.dropWhile pyIsSpace)).sublist.subset hc)

/-- `str.split` never returns an empty list of pieces. -/
theorem pySplitOn_ne_nil (sep : Char) (s : List Char) : pySplitOn sep s ≠ [] := by
  cases s with
  | nil => simp [pySplitOn]
  | cons c cs =>
    unfold pySplitOn
    cases h : pySplitOn sep cs with
    | nil => simp
    | cons a as => split_ifs <;> simp

/-- The spec-side splitter never returns an empty list of pieces. -/
theorem splitOnSeps_ne_nil (s : List Char) : splitOnSeps s ≠ [] := by
  cases s with
  | nil => simp [splitOnSeps]
  | cons c cs =>
    unfold splitOnSeps
    cases h : splitOnSeps cs with
    | nil => simp
    | cons a as => split_ifs <;> simp

/-- Replacing "," by "_" and splitting on "_" is splitting on both
separators. -/
theorem pySplitOn_map_comma (s : List Char) :
    pySplitOn '_' (s.map commaToUnderscore) = splitOnSeps s := by
  induction s with
  | nil => rfl
  | cons c cs ih =>
    obtain ⟨a, as, ha⟩ : ∃ a as, splitOnSeps cs = a :: as := by
      cases h : splitOnSeps cs with
      | nil => exact absurd h (splitOnSeps_ne_nil cs)
      | cons a as => exact ⟨a, as, rfl⟩
    simp only [List.map_cons]
    unfold pySplitOn splitOnSeps
    rw [ih, ha]
    by_cases hc : c = ','
    · subst hc
      rw [show commaToUnderscore ',' = '_' from rfl]
      dsimp only
      rw [if_pos rfl, if_pos (Or.inl rfl)]
    · by_cases hu : c = '_'
      · subst hu
        rw [show commaToUnderscore '_' = '_' from by unfold commaToUnderscore; rw [if_neg (by decide)]]
        dsimp only
        rw [if_pos rfl, if_pos (Or.inr rfl)]
      · rw [show commaToUnderscore c = c from by unfold commaToUnderscore; rw [if_neg hc]]
        dsimp only
        rw [if_neg hu, if_neg (by tauto)]

/-- Pieces returned by `str.split(sep)` do not contain the separator. -/
theorem mem_pySplitOn_not_sep (sep : Char) (s : List Char) :
    ∀ a ∈ pySplitOn sep s, sep ∉ a := by
  induction s with
  | nil =>
    intro a ha
    simp [pySplitOn] at ha
    subst ha
    simp
  | cons c cs ih =>
    intro a ha
    unfold pySplitOn at ha
    cases h : pySplitOn sep cs with
    | nil => exact absurd h (pySplitOn_ne_nil sep cs)
    | cons b bs =>
      rw [h] at ha
      dsimp only at ha
      split_ifs at ha with hc
      · rcases List.mem_cons.mp ha with rfl | ha2
        · simp
        · exact ih a (by rw [h]; exact ha2)
      · rcases List.mem_cons.mp ha with rfl | ha2
        · intro hm
          rcases List.mem_cons.mp hm with he | hm2
          · exact hc he.symm
          · exact ih b (by rw [h]; exact List.mem_cons_self b bs) hm2
        · exact ih a (by rw [h]; exact List.mem_cons_of_mem b ha2)

/-- Characters of the pieces of `str.split(sep)` come from the input. -/
theorem subset_pySplitOn (sep : Char) (s : List Char) :
    ∀ a ∈ pySplitOn sep s, ∀ c ∈ a, c ∈ s := by
  induction s with
  | nil =>
    intro a ha
    simp [pySplitOn] at ha
    subst ha
    simp
  | cons c cs ih =>
    intro a ha
    unfold pySplitOn at ha
    cases h : pySplitOn sep cs with
    | nil => exact absurd h (pySplitOn_ne_nil sep cs)
    | cons b bs =>
      rw [h] at ha
      dsimp only at ha
      split_ifs at ha with hc
      · rcases List.mem_cons.mp ha with rfl | ha2
        · simp
        · intro d hd
          exact List.mem_cons_of_mem _ (ih a (by rw [h]; exact ha2) d hd)
      · rcases List.mem_cons.mp ha with rfl | ha2
        · intro d hd
          rcases List.mem_cons.mp hd with rfl | hd2
          · exact List.mem_cons_self _ _
          · exact List.mem_cons_of_mem _
              (ih b (by rw [h]; exact List.mem_cons_self b bs) d hd2)
        · intro d hd
          exact List.mem_cons_of_mem _ (ih a (by rw [h]; exact List.mem_cons_of_mem b ha2) d hd)

/-- Splitting a string of the form `s ++ sep :: r` with `sep ∉ s` peels off
`s` as the first piece. -/
theorem pySplitOn_append (sep : Char) (s r : List Char) (hs : sep ∉ s) :
    pySplitOn sep (s ++ sep :: r) = s :: pySplitOn sep r := by
  induction s with
  | nil =>
    simp only [List.nil_append]
    cases h : pySplitOn sep r with
    | nil => exact absurd h (pySplitOn_ne_nil sep r)
    | cons a as =>
      unfold pySplitOn
      rw [h]
      dsimp only
      rw [if_pos rfl]
  | cons c cs ih =>
    have hc : c ≠ sep := fun hh => hs (hh ▸ List.mem_cons_self c cs)
    have hcs : sep ∉ cs := fun hh => hs (List.mem_cons_of_mem c hh)
    have ih2 := ih hcs
    cases h : pySplitOn sep r with
    | nil => exact absurd h (pySplitOn_ne_nil sep r)
    | cons a as =>
      rw [h] at ih2
      simp only [List.cons_append]
      unfold pySplitOn
      rw [ih2]
      dsimp only
      rw [if_neg hc]

/-- Splitting a separator-free string returns the string as the single
piece. -/
theorem pySplitOn_no_sep (sep : Char) (s : List Char) (hs : sep ∉ s) :
    pySplitOn sep s = [s] := by
  induction s with
  | nil => rfl
  | cons c cs ih =>
    have hc : c ≠ sep := fun hh => hs (hh ▸ List.mem_cons_self c cs)
    have hcs : sep ∉ cs := fun hh => hs (List.mem_cons_of_mem c hh)
    unfold pySplitOn
    rw [ih hcs]
    dsimp only
    rw [if_neg hc]

/-- `split` is a left inverse of `join` on separator-free segments. -/
theorem pySplitOn_pyJoin (ss : List (List Char)) (hne : ss ≠ [])
    (hsep : ∀ a ∈ ss, '_' ∉ a) :
    pySplitOn '_' (pyJoin '_' ss) = ss := by
  induction ss with
  | nil => exact absurd rfl hne
  | cons a rest ih =>
    cases rest with
    | nil => exact pySplitOn_no_sep '_' a (hsep a (List.mem_cons_self _ _))
    | cons b rest2 =>
      rw [show pyJoin '_' (a :: b :: rest2) = a ++ '_' :: pyJoin '_' (b :: rest2) from rfl,
        pySplitOn_append '_' a _ (hsep a (List.mem_cons_self _ _)),
        ih (by simp) fun x hx => hsep x (List.mem_cons_of_mem a hx)]

/-- `join` of nonempty segments is nonempty. -/
theorem pyJoin_ne_nil (sep : Char) (ss : List (List Char)) (hne : ss ≠ [])
    (hhead : ∀ a ∈ ss, a ≠ []) : pyJoin sep ss ≠ [] := by
  cases ss with
  | nil => exact absurd rfl hne
  | cons a rest =>
    cases rest with
    | nil => exact hhead a (List.mem_cons_self _ _)
    | cons b r2 =>
      show a ++ sep :: pyJoin sep (b :: r2) ≠ []
      simp

/-- Characters of a join are the separator or characters of a segment. -/
theorem mem_pyJoin (sep : Char) (ss : List (List Char)) (c : Char) :
    c ∈ pyJoin sep ss → c = sep ∨ ∃ a ∈ ss, c ∈ a := by
  induction ss with
  | nil =>
    intro hc
    simp [pyJoin] at hc
  | cons a rest ih =>
    intro hc
    cases rest with
    | nil => exact Or.inr ⟨a, List.mem_cons_self _ _, hc⟩
    | cons b r2 =>
      rw [show pyJoin sep (a :: b :: r2) = a ++ sep :: pyJoin sep (b :: r2) from rfl] at hc
      rcases List.mem_append.mp hc with h | h
      · exact Or.inr ⟨a, List.mem_cons_self _ _, h⟩
      · rcases List.mem_cons.mp h with rfl | h2
        · exact Or.inl rfl
        · rcases ih h2 with h3 | ⟨x, hx, hcx⟩
          · exact Or.inl h3
          · exact Or.inr ⟨x, List.mem_cons_of_mem _ hx, hcx⟩

/-- A segment of the colour normaliser's output: nonempty, fixed by
`strip`, fixed by `lower`, free of both separators. -/
def GoodSeg (seg : List Char) : Prop :=
  seg ≠ [] ∧ pyStrip seg = seg ∧ seg.map pyToLower = seg ∧ '_' ∉ seg ∧ ',' ∉ seg

/-- Unfolding equation for `process_cat_color` on a present string. -/
theorem process_cat_color_some (s : List Char) :
    process_cat_color (some s) =
      (if s = [] then "unknown".data
       else
         let colors := (pySplitOn '_' (s.map commaToUnderscore)).map
           (fun c => (pyStrip c).map pyToLower)
         let colors := colors.filter (fun c => c ≠ [])
         if colors = [] then "unknown".data
         else pyJoin '_' colors) := rfl

/-- Unfolding equation for `normalizeColorSpec` on a present string. -/
theorem normalizeColorSpec_some (s : List Char) :
    normalizeColorSpec (some s) =
      (if s = [] then "unknown".data
       else
         let segs := ((splitOnSeps s).map (fun seg => (pyStrip seg).map pyToLower)).filter
           (fun seg => seg ≠ [])
         if segs = [] then "unknown".data
         else pyJoin '_' segs) := rfl

/-- The output of `process_cat_color` is "unknown" or a join of good
segments. -/
theorem process_cat_color_cases (cc : Option (List Char)) :
    process_cat_color cc = "unknown".data ∨
    ∃ cs, cs ≠ [] ∧ (∀ seg ∈ cs, GoodSeg seg) ∧ process_cat_color cc = pyJoin '_' cs := by
  cases cc with
  | none => exact Or.inl rfl
  | some s =>
    rw [process_cat_color_some]
    by_cases hs : s = []
    · rw [if_pos hs]
      exact Or.inl rfl
    · rw [if_neg hs]
      dsimp only
      by_cases hc : ((pySplitOn '_' (s.map commaToUnderscore)).map
          (fun c => (pyStrip c).map pyToLower)).filter (fun c => c ≠ []) = []
      · rw [if_pos hc]
        exact Or.inl rfl
      · rw [if_neg hc]
        refine Or.inr ⟨_, hc, ?_, rfl⟩
        intro seg hseg
        have hne : seg ≠ [] := by simpa using List.of_mem_filter hseg
        obtain ⟨piece, hpiece, rfl⟩ := List.mem_map.mp (List.mem_of_mem_filter hseg)
        refine ⟨hne, ?_, map_pyToLower_idem _, ?_, ?_⟩
        · rw [pyStrip_map_pyToLower, pyStrip_idem]
        · intro hin
          obtain ⟨c, hcmem, hceq⟩ := List.mem_map.mp hin
          have hcs : c ∈ piece := mem_of_mem_pyStrip _ _ hcmem
          exact pyToLower_ne_of_lt c '_' (by decide)
            (fun he => mem_pySplitOn_not_sep '_' _ piece hpiece (he ▸ hcs)) hceq
        · intro hin
          obtain ⟨c, hcmem, hceq⟩ := List.mem_map.mp hin
          have hcs : c ∈ piece := mem_of_mem_pyStrip _ _ hcmem
          obtain ⟨d, hd, hde⟩ := List.mem_map.mp
            (subset_pySplitOn '_' _ piece hpiece c hcs)
          have hcne : c ≠ ',' := by
            intro he
            rw [he] at hde
            unfold commaToUnderscore at hde
            split_ifs at hde with hd2
            · exact absurd hde (by decide)
            · exact hd2 hde
          exact pyToLower_ne_of_lt c ',' (by decide) hcne hceq

/-- A join of good segments is a fixed point of `process_cat_color`. -/
theorem process_cat_color_fixpoint (cs : List (List Char)) (hne : cs ≠ [])
    (hgood : ∀ seg ∈ cs, GoodSeg seg) :
    process_cat_color (some (pyJoin '_' cs)) = pyJoin '_' cs := by
  have hjoin_ne : pyJoin '_' cs ≠ [] := pyJoin_ne_nil '_' cs hne fun a ha => (hgood a ha).1
  rw [process_cat_color_some, if_neg hjoin_ne]
  dsimp only
  have hmap : (pyJoin '_' cs).map commaToUnderscore = pyJoin '_' cs := by
    apply map_eq_self_of
    intro c hcmem
    rcases mem_pyJoin '_' cs c hcmem with rfl | ⟨a, ha, hca⟩
    · rfl
    · unfold commaToUnderscore
      rw [if_neg (show ¬ c = ',' from fun he => (hgood a ha).2.2.2.2 (he ▸ hca))]
  rw [hmap, pySplitOn_pyJoin cs hne fun a ha => (hgood a ha).2.2.2.1]
  have hmapseg : cs.map (fun c => (pyStrip c).map pyToLower) = cs := by
    apply map_eq_self_of
    intro seg hseg
    obtain ⟨-, h2, h3, -, -⟩ := hgood seg hseg
    rw [h2, h3]
  rw [hmapseg]
  have hfilter : cs.filter (fun c => c ≠ []) = cs := by
    rw [List.filter_eq_self]
    intro a ha
    simpa using (hgood a ha).1
  rw [hfilter, if_neg hne]

/-- "unknown" is a fixed point of the normaliser. -/
theorem process_cat_color_unknown :
    process_cat_color (some ("unknown".data)) = "unknown".data := by
  have hgood : ∀ seg ∈ ["unknown".data], GoodSeg seg := by
    intro seg hseg
    rw [List.mem_singleton] at hseg
    subst hseg
    refine ⟨by decide, by decide, by decide, by decide, by decide⟩
  exact process_cat_color_fixpoint ["unknown".data] (by simp) hgood

/-! ## Claims -/

/-- C3: `estimate_body_condition` does not depend on its `chest_cm`
argument: for all `c1, c2` (and any weight and body length) the results
coincide. -/
theorem estimate_body_condition_ignores_chest (c1 c2 weight body_length_cm : ℚ) :
    estimate_body_condition c1 weight body_length_cm
      = estimate_body_condition c2 weight body_length_cm := rfl

/-- C4: `analyze_cat` is deterministic — two calls with identical inputs
(and the same ambient per-process `set` iteration order) yield identical
results.  The embedding is a pure function of its arguments: there is no
randomness, I/O or clock access in the pipeline. -/
theorem analyze_cat_deterministic (image_path : String) (x1 y1 x2 y2 : ℚ)
    (firebase_uid : String) (cat_color : Option String) (breed age_category : String)
    (order : List String) :
    analyze_cat image_path x1 y1 x2 y2 firebase_uid cat_color breed age_category order
      = analyze_cat image_path x1 y1 x2 y2 firebase_uid cat_color breed age_category order := rfl

/-- C7: `estimate_weight` computes `(chest² × body_length / 3000) ×
breedModifier × ageModifier` rounded to 2 decimals, where the modifiers come
from the fixed tables (age: kitten=0.3, young=0.7, adult=1.0, senior=0.95)
and any string missing from a table falls back to modifier 1 without
error (the spec-side functions encode exactly that fallback). -/
theorem estimate_weight_formula (c l : ℚ) (b a : String) :
    estimate_weight c l b a = estimateWeightSpec c l b a := by
  unfold estimate_weight estimateWeightSpec breedModifierSpec
  rw [getD_lookup_age]

/-- Counterexample to C5 as stated: the claim quantifies over every
`body_length_cm`, but at `body_length_cm = 0` the source raises
`ZeroDivisionError` (here `none`), so no `bcs_score` is returned at all. -/
theorem estimate_body_condition_zero_counterexample :
    estimate_body_condition 0 1 0 = none :=
  estimate_body_condition_zero_length 0 1

/-- C5 (amended: body length nonzero, since at 0 the source raises):
`estimate_body_condition` computes `bmi = weight×1000 / body_length²` and
maps it through the spec's ordered step function; `bmi` exactly 6 falls in
the `overweight`/6 tier, and the score is always an integer in `[3, 8]`. -/
theorem estimate_body_condition_step_function (c w l : ℚ) (hl : l ≠ 0) :
    ∃ r, estimate_body_condition c w l = some r ∧
      r.bcs_score = bcsSpecScore (w * 1000 / l ^ 2) ∧
      r.condition = bcsSpecCondition (w * 1000 / l ^ 2) ∧
      3 ≤ r.bcs_score ∧ r.bcs_score ≤ 8 ∧
      (w * 1000 / l ^ 2 = 6 → r.bcs_score = 6 ∧ r.condition = "overweight") := by
  have hl2 : l ^ 2 ≠ 0 := pow_ne_zero _ hl
  unfold estimate_body_condition bcsSpecScore bcsSpecCondition
  rw [if_neg hl2]
  dsimp only
  split_ifs with h1 h2 h3 h4 h5
  · exact ⟨_, rfl, rfl, rfl, by norm_num, by norm_num,
      fun h6 => by rw [h6] at h1; norm_num at h1⟩
  · exact ⟨_, rfl, rfl, rfl, by norm_num, by norm_num,
      fun h6 => by rw [h6] at h2; norm_num at h2⟩
  · exact ⟨_, rfl, rfl, rfl, by norm_num, by norm_num,
      fun h6 => by rw [h6] at h3; norm_num at h3⟩
  · exact ⟨_, rfl, rfl, rfl, by norm_num, by norm_num, fun _ => ⟨rfl, rfl⟩⟩
  · exact ⟨_, rfl, rfl, rfl, by norm_num, by norm_num,
      fun h6 => (h4 (by rw [h6]; norm_num)).elim⟩
  · exact ⟨_, rfl, rfl, rfl, by norm_num, by norm_num,
      fun h6 => (h4 (by rw [h6]; norm_num)).elim⟩

/-- Witness for C5 at `chest = 0, weight = 0.6, body length = 10`, where
`bmi` is exactly 6. -/
theorem estimate_body_condition_step_function_witness :
    (10 : ℚ) ≠ 0 ∧
    ∃ r, estimate_body_condition 0 (3/5) 10 = some r ∧
      r.bcs_score = bcsSpecScore ((3/5) * 1000 / (10 : ℚ) ^ 2) ∧
      r.condition = bcsSpecCondition ((3/5) * 1000 / (10 : ℚ) ^ 2) ∧
      3 ≤ r.bcs_score ∧ r.bcs_score ≤ 8 ∧
      ((3/5 : ℚ) * 1000 / (10 : ℚ) ^ 2 = 6 → r.bcs_score = 6 ∧ r.condition = "overweight") :=
  ⟨by norm_num, estimate_body_condition_step_function 0 (3/5) 10 (by norm_num)⟩

/-- Counterexample to C6 as stated: the claim quantifies over every `h > 0`
and defines `ratio = w/h`, but the source computes `ratio = w / max(h, 1)`;
at `w = 0.9, h = 0.5` the claim's ratio is `1.8 > 1.6` (lying) while the
source classifies `standing` with factor 1. -/
theorem estimate_posture_counterexample :
    0 < (9 : ℚ)/10 ∧ 0 < (1 : ℚ)/2 ∧
    estimate_posture (9/10) (1/2) ≠ classifyPostureSpec ((9/10) / (1/2)) := by
  refine ⟨by norm_num, by norm_num, ?_⟩
  have h1 : estimate_posture (9/10) (1/2) = ("standing", 1) := by
    unfold estimate_posture
    dsimp only
    rw [show (max ((1 : ℚ)/2) 1) = 1 from max_eq_right (by norm_num)]
    norm_num
  have h2 : classifyPostureSpec ((9/10) / (1/2)) = ("lying", 17/20) := by
    unfold classifyPostureSpec
    norm_num
  rw [h1, h2]
  simp

/-- C6 (amended: `h ≥ 1` instead of `h > 0`, since the source divides by
`max(h, 1)`): `estimate_posture` is the spec's pure function of
`ratio = w/h`, and neither boundary ratio 1.6 is `lying` nor boundary ratio
0.8 is `sitting`. -/
theorem estimate_posture_matches_spec_table (w h : ℚ) (hw : 0 < w) (hh : 1 ≤ h) :
    estimate_posture w h = classifyPostureSpec (w / h) ∧
    (w / h = 8/5 → (estimate_posture w h).1 ≠ "lying") ∧
    (w / h = 4/5 → (estimate_posture w h).1 ≠ "sitting") := by
  have hmax : max h 1 = h := max_eq_left hh
  have main : estimate_posture w h = classifyPostureSpec (w / h) := by
    unfold estimate_posture classifyPostureSpec
    dsimp only
    rw [hmax]
    rcases lt_or_le (8/5 : ℚ) (w / h) with h1 | h1
    · rw [if_pos h1, if_pos h1]
    · rw [if_neg (not_lt.mpr h1), if_neg (not_lt.mpr h1)]
      rcases lt_or_le (7/5 : ℚ) (w / h) with h2 | h2
      · rw [if_pos h2, if_pos ⟨h2, h1⟩]
      · rw [if_neg (not_lt.mpr h2),
            if_neg (show ¬(7/5 < w / h ∧ w / h ≤ 8/5) from fun hc => absurd hc.1 (not_lt.mpr h2))]
        rcases lt_or_le (w / h) (4/5 : ℚ) with h3 | h3
        · rw [if_pos h3, if_pos h3]
        · rw [if_neg (not_lt.mpr h3), if_neg (not_lt.mpr h3)]
          rcases lt_or_le (w / h) 1 with h4 | h4
          · rw [if_pos h4, if_pos ⟨h3, h4⟩]
          · rw [if_neg (not_lt.mpr h4),
                if_neg (show ¬(4/5 ≤ w / h ∧ w / h < 1) from fun hc => absurd hc.2 (not_lt.mpr h4))]
  refine ⟨main, fun hr => ?_, fun hr => ?_⟩
  · rw [main, hr]
    have hv : classifyPostureSpec (8/5 : ℚ) = ("curled", 22/25) := by
      unfold classifyPostureSpec
      norm_num
    rw [hv]
    decide
  · rw [main, hr]
    have hv : classifyPostureSpec (4/5 : ℚ) = ("standing", 1) := by
      unfold classifyPostureSpec
      norm_num
    rw [hv]
    decide

/-- Witness for the amended C6 at `w = 8/5, h = 1` (boundary ratio 1.6). -/
theorem estimate_posture_matches_spec_table_witness :
    0 < (8 : ℚ)/5 ∧ (1 : ℚ) ≤ 1 ∧
    (estimate_posture (8/5) 1 = classifyPostureSpec ((8/5) / 1) ∧
     ((8 : ℚ)/5 / 1 = 8/5 → (estimate_posture (8/5) 1).1 ≠ "lying") ∧
     ((8 : ℚ)/5 / 1 = 4/5 → (estimate_posture (8/5) 1).1 ≠ "sitting")) :=
  ⟨by norm_num, le_refl 1, estimate_posture_matches_spec_table (8/5) 1 (by norm_num) (le_refl 1)⟩

/-- C8: every `BodyMetrics` record produced by `estimate_body_metrics`
satisfies `neck_cm = round(chest_cm × 0.62, 1)`,
`waist_cm = round(chest_cm × 0.85, 1)` and
`back_length_cm = round(body_length_cm × 0.75, 1)`. -/
theorem body_metrics_ratio_invariants (x1 y1 x2 y2 : ℚ) (m : BodyMetrics)
    (hm : estimate_body_metrics x1 y1 x2 y2 = some m) :
    m.neck_cm = pyRoundTo 1 (m.chest_cm * (62/100)) ∧
    m.waist_cm = pyRoundTo 1 (m.chest_cm * (85/100)) ∧
    m.back_length_cm = pyRoundTo 1 (m.body_length_cm * (3/4)) := by
  unfold estimate_body_metrics at hm
  dsimp only at hm
  split at hm
  · exact absurd hm (by simp)
  · injection hm with hm
    subst hm
    exact ⟨rfl, rfl, rfl⟩

/-- Witness for C8 on the bounding box `[0, 0, 80, 500/11]`. -/
theorem body_metrics_ratio_invariants_witness :
    estimate_body_metrics 0 0 80 (500/11)
      = some ⟨"lying", 641/5, 159/2, 109, 80, 60, 159/10, 23/50, "poor"⟩ ∧
    ((BodyMetrics.mk "lying" (641/5) (159/2) 109 80 60 (159/10) (23/50) "poor").neck_cm
        = pyRoundTo 1 ((BodyMetrics.mk "lying" (641/5) (159/2) 109 80 60 (159/10) (23/50)
            "poor").chest_cm * (62/100)) ∧
     (BodyMetrics.mk "lying" (641/5) (159/2) 109 80 60 (159/10) (23/50) "poor").waist_cm
        = pyRoundTo 1 ((BodyMetrics.mk "lying" (641/5) (159/2) 109 80 60 (159/10) (23/50)
            "poor").chest_cm * (85/100)) ∧
     (BodyMetrics.mk "lying" (641/5) (159/2) 109 80 60 (159/10) (23/50) "poor").back_length_cm
        = pyRoundTo 1 ((BodyMetrics.mk "lying" (641/5) (159/2) 109 80 60 (159/10) (23/50)
            "poor").body_length_cm * (3/4))) :=
  ⟨metrics_eval_A, body_metrics_ratio_invariants 0 0 80 (500/11) _ metrics_eval_A⟩

/-- Counterexample to C1 as stated: at `weight = 3, chest = 33, neck = 16`
the vote multiset is `[S, M, M, S]`, a 2–2 tie.  `["S", "M"]` is an
admissible iteration order of `set(sizes)` (which order CPython produces
depends on the hash seed), and under it `max(set(sizes), key=sizes.count)`
returns `"S"` — not the chest category `"M"` the claim requires. -/
theorem size_tie_counterexample :
    SetOrder ["S", "M"] (sizesList 3 33 16) ∧
    (determine_size 3 33 16 ["S", "M"]).map SizeInfo.size_category = some "S" := by
  constructor
  · rw [sizesList_eval_1]
    decide
  · unfold determine_size
    dsimp only
    rw [sizesList_eval_1]
    rfl

/-- C1 (amended): under every admissible `set` iteration order,
`determine_size` returns an element of the vote multiset
`[weightSize, chestSize, chestSize, neckSize]` with maximal multiplicity
(so a unique mode always wins); which of two tied categories is returned
depends on the hash-seed–dependent iteration order, not on a chest-first
rule. -/
theorem determine_size_returns_mode (weight chest_cm neck_cm : ℚ) (order : List String)
    (ho : SetOrder order (sizesList weight chest_cm neck_cm)) :
    ∃ info, determine_size weight chest_cm neck_cm order = some info ∧
      info.size_category ∈ sizesList weight chest_cm neck_cm ∧
      ∀ s ∈ sizesList weight chest_cm neck_cm,
        (sizesList weight chest_cm neck_cm).count s
          ≤ (sizesList weight chest_cm neck_cm).count info.size_category :=
  determine_size_mode_helper weight chest_cm neck_cm order ho

/-- Witness for the amended C1 on the tied vote `[S, M, M, S]` with
iteration order `["M", "S"]`. -/
theorem determine_size_returns_mode_witness :
    SetOrder ["M", "S"] (sizesList 3 33 16) ∧
    ∃ info, determine_size 3 33 16 ["M", "S"] = some info ∧
      info.size_category ∈ sizesList 3 33 16 ∧
      ∀ s ∈ sizesList 3 33 16,
        (sizesList 3 33 16).count s ≤ (sizesList 3 33 16).count info.size_category :=
  ⟨by rw [sizesList_eval_1]; decide,
   determine_size_returns_mode 3 33 16 ["M", "S"] (by rw [sizesList_eval_1]; decide)⟩

/-- Counterexample to C2 as stated: on the bounding box `[0, 0, 1, 1000]`
the derived `body_length_cm` rounds to 0.0, and `estimate_body_condition`
divides by `body_length_cm ** 2 = 0.0`, so `analyze_cat` raises
`ZeroDivisionError` instead of producing a result. -/
theorem analyze_cat_raises_counterexample :
    analyze_cat "img.jpg" 0 0 1 1000 "uid" none "unknown" "adult"
      ["XS", "S", "M", "L", "XL"] = none := by
  unfold analyze_cat
  dsimp only
  rw [metrics_eval_B]
  dsimp only
  rw [estimate_body_condition_zero_length]

/-- C2 (amended): `analyze_cat` raises no exception except the division by
zero in `estimate_body_condition` when the derived `body_length_cm` is 0:
whenever the metrics record has nonzero body length (and the ambient `set`
iteration order is an admissible enumeration of the vote multiset), a result
record is produced. -/
theorem analyze_cat_total_unless_zero_body_length (image_path : String) (x1 y1 x2 y2 : ℚ)
    (firebase_uid : String) (cat_color : Option String) (breed age_category : String)
    (order : List String) (m : BodyMetrics)
    (hm : estimate_body_metrics x1 y1 x2 y2 = some m)
    (hlen : m.body_length_cm ≠ 0)
    (ho : SetOrder order (sizesList (estimate_weight m.chest_cm m.body_length_cm breed age_category)
      m.chest_cm m.neck_cm)) :
    ∃ r, analyze_cat image_path x1 y1 x2 y2 firebase_uid cat_color breed age_category order
      = some r := by
  obtain ⟨bc, hbc⟩ := estimate_body_condition_some m.chest_cm
    (estimate_weight m.chest_cm m.body_length_cm breed age_category) m.body_length_cm hlen
  obtain ⟨info, hinfo, -, -⟩ := determine_size_mode_helper
    (estimate_weight m.chest_cm m.body_length_cm breed age_category) m.chest_cm m.neck_cm order ho
  unfold analyze_cat
  dsimp only
  rw [hm]
  dsimp only
  rw [hbc]
  dsimp only
  rw [hinfo]
  exact ⟨_, rfl⟩

/-- Witness for the amended C2 on the bounding box `[0, 0, 80, 500/11]`. -/
theorem analyze_cat_total_unless_zero_body_length_witness :
    estimate_body_metrics 0 0 80 (500/11)
      = some ⟨"lying", 641/5, 159/2, 109, 80, 60, 159/10, 23/50, "poor"⟩ ∧
    (BodyMetrics.mk "lying" (641/5) (159/2) 109 80 60 (159/10) (23/50) "poor").body_length_cm ≠ 0 ∧
    SetOrder ["XL"] (sizesList
      (estimate_weight
        (BodyMetrics.mk "lying" (641/5) (159/2) 109 80 60 (159/10) (23/50) "poor").chest_cm
        (BodyMetrics.mk "lying" (641/5) (159/2) 109 80 60 (159/10) (23/50) "poor").body_length_cm
        "unknown" "adult")
      (BodyMetrics.mk "lying" (641/5) (159/2) 109 80 60 (159/10) (23/50) "poor").chest_cm
      (BodyMetrics.mk "lying" (641/5) (159/2) 109 80 60 (159/10) (23/50) "poor").neck_cm) ∧
    ∃ r, analyze_cat "img.jpg" 0 0 80 (500/11) "uid" none "unknown" "adult" ["XL"] = some r := by
  have hsz : sizesList (estimate_weight (641/5) 80 "unknown" "adult") (641/5) (159/2)
      = ["XL", "XL", "XL", "XL"] := by
    rw [weight_eval_A]
    unfold sizesList weight_size chest_size neck_size
    norm_num
  have ho : SetOrder ["XL"] (sizesList (estimate_weight (641/5) 80 "unknown" "adult")
      (641/5) (159/2)) := by
    rw [hsz]
    decide
  exact ⟨metrics_eval_A, by norm_num, ho,
    analyze_cat_total_unless_zero_body_length "img.jpg" 0 0 80 (500/11) "uid" none
      "unknown" "adult" ["XL"] _ metrics_eval_A (by norm_num) ho⟩

/-- C9: `process_cat_color` agrees everywhere with the spec's normaliser:
absent, empty, or all-blank-segment input gives "unknown", otherwise the
lowercase trimmed segments (split on "," and "_", empty segments dropped)
joined by "_"; being a total function, it never fails. -/
theorem process_cat_color_matches_spec (cc : Option (List Char)) :
    process_cat_color cc = normalizeColorSpec cc := by
  cases cc with
  | none => rfl
  | some s => rw [process_cat_color_some, normalizeColorSpec_some, pySplitOn_map_comma]

/-- C10: `process_cat_color` is idempotent — renormalising its own output
leaves it unchanged. -/
theorem process_cat_color_idempotent (cc : Option (List Char)) :
    process_cat_color (some (process_cat_color cc)) = process_cat_color cc := by
  rcases process_cat_color_cases cc with h | ⟨cs, hne, hgood, h⟩
  · rw [h]
    exact process_cat_color_unknown
  · rw [h]
    exact process_cat_color_fixpoint cs hne hgood

end CatShop
